import Mathlib

/-!
Verification of the pj-raycast extension's core logic: path prettification,
marker-type tagging, the favorites / recent-projects store, quick-switch
ordering, and relative-date formatting.

Source files embedded: `src/utils.ts`, `src/list-projects.tsx`, the
quick-switch command (`loadProjects` comparator), and the search command
(`formatDate`).

Modelling conventions:
- JS strings are Lean `String`s; character-level operations are performed on
  `String.data` (JS `slice`/`startsWith` index by UTF-16 code units, Lean by
  code points; they agree on the paths and markers involved, and the
  properties verified are stated at this level).
- `LocalStorage` is a two-field record `Store` holding the deserialized
  contents of the two keys `pj-favorites` and `pj-recent-projects`
  (`STORAGE_KEYS` in `src/utils.ts`). A `setItem` write that may fail is
  modelled by a `writeOk : Bool` parameter; a failing write throws, which is
  modelled with `Except` so that the `catch` branch of each function is
  explicit. Toast notifications and `console.error` logs are returned as
  explicit lists.
- `JSON.parse` (used by `getFavorites` / `getRecentProjects`) is modelled by
  an arbitrary `parse` function argument returning `Except`, since only the
  error-absorption behaviour of the callers is at stake.
- JS `Array.prototype.sort` is a stable comparator sort; it is modelled by
  Mathlib's stable `List.insertionSort` on the comparator's `≤ 0` relation.
  `localeCompare` is modelled as code-point lexicographic comparison (the
  comparison in the "C" locale).
-/

/-- Model of JS `path.startsWith(home)`: the first `home.length` characters of
`path` equal `home`. -/
def strStartsWith (s pre : String) : Bool :=
  s.data.take pre.data.length == pre.data

/-- Model of JS `path.slice(n)` / the suffix left by `String.prototype.replace`
of a leading prefix of length `n`. -/
def strDrop (s : String) (n : Nat) : String :=
  String.mk (s.data.drop n)

/-- Embeds `formatDisplayPath` from `src/utils.ts` lines 29-35 (duplicated in
`src/list-projects.tsx` lines 53-59). The source is
`if (path.startsWith(home)) return path.replace(home, "~"); return path;`.
Under the `startsWith` guard the first occurrence of `home` is at index 0, so
`path.replace(home, "~")` equals `"~" + path.slice(home.length)`. The ambient
`homedir()` is passed explicitly as `home`. -/
def formatDisplayPath (home path : String) : String :=
  if strStartsWith path home then "~" ++ strDrop path home.length else path

/-- The fixed marker table of `formatProjectType` (`src/utils.ts` lines 39-54),
as an ordered association list. -/
def markerTypes : List (String × String) :=
  [(".git", "git"), ("package.json", "npm"), ("Cargo.toml", "cargo"),
   ("go.mod", "go"), ("pyproject.toml", "python"), ("Makefile", "make"),
   ("flake.nix", "nix"), ("composer.json", "php"), ("build.gradle", "gradle"),
   ("pom.xml", "maven"), ("Gemfile", "ruby"), ("mix.exs", "elixir"),
   ("deno.json", "deno"), ("pubspec.yaml", "dart")]

/-- A JS value as observed from `markerTypes[marker] || marker`: either a
string, or a truthy non-string object/function inherited from
`Object.prototype` (identified by the property name read). -/
inductive JsValue
  | str (s : String)
  | protoMember (name : String)
deriving DecidableEq

/-- The property names `marker` can hit on `Object.prototype` when it misses
the object literal's own properties: data properties (`constructor`,
`hasOwnProperty`, `isPrototypeOf`, `propertyIsEnumerable`, `toLocaleString`,
`toString`, `valueOf` and the legacy `__define`/`__lookup` accessors) plus
the `__proto__` accessor. Reading any of them yields a truthy function or
object, never `undefined`. -/
def objectProtoKeys : List String :=
  ["constructor", "hasOwnProperty", "isPrototypeOf", "propertyIsEnumerable",
   "toLocaleString", "toString", "valueOf", "__defineGetter__",
   "__defineSetter__", "__lookupGetter__", "__lookupSetter__", "__proto__"]

/-- Embeds `formatProjectType` from `src/utils.ts` lines 38-56:
`return markerTypes[marker] || marker;`. Property lookup on the object
literal first checks its own fourteen properties (the association-list
lookup), then the prototype chain: a marker naming an `Object.prototype`
member reads the inherited truthy function/object, which `||` returns as-is
(the TypeScript `Record<string, string>` annotation notwithstanding). Only
when the lookup reaches `undefined` — or would find a falsy empty string,
which the table never holds — does `||` fall back to `marker`. -/
def formatProjectType (marker : String) : JsValue :=
  match markerTypes.find? (fun kv => kv.1 == marker) with
  | some kv => if kv.2.data.isEmpty then JsValue.str marker else JsValue.str kv.2
  | none =>
    if marker ∈ objectProtoKeys then JsValue.protoMember marker
    else JsValue.str marker

/-- The whole-day difference used by `formatDate`:
`Math.floor((now - date) / (1000 * 60 * 60 * 24))`, for `date ≤ now`. -/
def diffDaysOf (nowMs dateMs : Nat) : Nat :=
  (nowMs - dateMs) / 86400000

/-- Embeds `formatDate` from the search command (src/unnamed/part_001 lines
138-151). `undefined` dates (`none`) yield the empty string; otherwise the
bucket is chosen from the floored whole-day difference. Restricted to
timestamps not later than `nowMs`, where JS float floor-division agrees with
`Nat` division. -/
def formatDate (nowMs : Nat) (date : Option Nat) : String :=
  match date with
  | none => ""
  | some dateMs =>
    let diffDays := (nowMs - dateMs) / 86400000
    if diffDays = 0 then "Today"
    else if diffDays = 1 then "Yesterday"
    else if diffDays < 7 then toString diffDays ++ " days ago"
    else if diffDays < 30 then toString (diffDays / 7) ++ " weeks ago"
    else if diffDays < 365 then toString (diffDays / 30) ++ " months ago"
    else toString (diffDays / 365) ++ " years ago"

/-- Three-valued lexicographic comparison of character lists by code point;
the model of `String.prototype.localeCompare`'s sign. -/
def charListCmp : List Char → List Char → Int
  | [], [] => 0
  | [], _ :: _ => -1
  | _ :: _, [] => 1
  | a :: as, b :: bs =>
    if a.toNat < b.toNat then -1
    else if b.toNat < a.toNat then 1
    else charListCmp as bs

/-- Model of `a.localeCompare(b)`: code-point lexicographic comparison. -/
def localeCompare (a b : String) : Int :=
  charListCmp a.data b.data

/-- The discovery service's project record (`Project` from `@joe-sh/pj`,
re-exported by `src/types.ts`). -/
structure Project where
  path : String
  name : String
  marker : String
  icon : Option String
deriving DecidableEq

/-- Model of JS `Array.prototype.indexOf`: the first index of `s` in `l`, or
`-1` when absent. -/
def jsIndexOf (l : List String) (s : String) : Int :=
  if s ∈ l then (l.indexOf s : Int) else -1

/-- Embeds the `sortedProjects` comparator of `loadProjects` in the
quick-switch command (src/unnamed/part_000 lines 43-60): both recent compare
by recency index, a recent project precedes a non-recent one, and two
non-recent projects compare by `localeCompare` on names. -/
def quickSwitchCmp (recentPathList : List String) (a b : Project) : Int :=
  let aRecentIndex := jsIndexOf recentPathList a.path
  let bRecentIndex := jsIndexOf recentPathList b.path
  if aRecentIndex ≠ -1 ∧ bRecentIndex ≠ -1 then aRecentIndex - bRecentIndex
  else if aRecentIndex ≠ -1 then -1
  else if bRecentIndex ≠ -1 then 1
  else localeCompare a.name b.name

/-- Embeds `[...discoveredProjects].sort(comparator)` from `loadProjects`
(src/unnamed/part_000 line 43). `Array.prototype.sort` is stable, and the
comparator is a total preorder, so the stable `List.insertionSort` on the
comparator's `≤ 0` relation is its unique output. -/
def sortedProjects (recentPathList : List String) (projects : List Project) :
    List Project :=
  List.insertionSort (fun a b => quickSwitchCmp recentPathList a b ≤ 0) projects

/-- Concrete discovered project A of the spec's composer-ordering example. -/
def projA : Project := ⟨"/r/A", "A", ".git", none⟩

/-- Concrete discovered project B of the spec's composer-ordering example. -/
def projB : Project := ⟨"/r/B", "B", ".git", none⟩

/-- Concrete discovered project C of the spec's composer-ordering example. -/
def projC : Project := ⟨"/r/C", "C", ".git", none⟩

/-- Raycast toast styles used by `src/utils.ts` (`Toast.Style`). -/
inductive ToastStyle
  | success
  | failure
deriving DecidableEq

/-- A toast notification: style and title (the failure toast's extra `message`
field carries only the caught error's text and is not modelled). -/
structure ToastMsg where
  style : ToastStyle
  title : String
deriving DecidableEq

/-- A recent-project entry (`FavoriteProject` in `src/types.ts`):
`{ path, lastAccessed }`. -/
structure FavoriteProject where
  path : String
  lastAccessed : Nat
deriving DecidableEq

/-- The deserialized contents of the two LocalStorage keys
(`STORAGE_KEYS.FAVORITES` and `STORAGE_KEYS.RECENT_PROJECTS`,
`src/utils.ts` lines 59-62). -/
structure Store where
  favorites : List String
  recentProjects : List FavoriteProject
deriving DecidableEq

/-- The `try` body of `toggleFavorite` (`src/utils.ts` lines 76-96): look up
the index, push or splice, write (`setItem` throws when `writeOk = false`,
modelled as `Except.error`), then toast and return the new membership. -/
def toggleFavoriteBody (st : Store) (projectPath : String) (writeOk : Bool) :
    Except Unit (Bool × Store × List ToastMsg) :=
  let favorites := st.favorites
  let index := jsIndexOf favorites projectPath
  if index = -1 then
    if writeOk then
      Except.ok (true, { st with favorites := favorites ++ [projectPath] },
        [⟨ToastStyle.success, "Added to Favorites"⟩])
    else Except.error ()
  else
    if writeOk then
      Except.ok (false, { st with favorites := favorites.eraseIdx index.toNat },
        [⟨ToastStyle.success, "Removed from Favorites"⟩])
    else Except.error ()

/-- Embeds `toggleFavorite` from `src/utils.ts` lines 75-105: the `try` body,
with the `catch` branch (lines 97-104) showing the failure toast and
returning `false`, the storage left as it was. -/
def toggleFavorite (st : Store) (projectPath : String) (writeOk : Bool) :
    Bool × Store × List ToastMsg :=
  match toggleFavoriteBody st projectPath writeOk with
  | Except.ok r => r
  | Except.error _ => (false, st, [⟨ToastStyle.failure, "Failed to update favorites"⟩])

/-- The `try` body of `addToRecentProjects` (`src/utils.ts` lines 119-134):
filter out the path, unshift a fresh entry stamped `now`, keep the first 10,
write. -/
def addToRecentProjectsBody (st : Store) (projectPath : String) (now : Nat)
    (writeOk : Bool) : Except Unit Store :=
  let recent := st.recentProjects
  let filtered := recent.filter (fun p => p.path != projectPath)
  let trimmed := (⟨projectPath, now⟩ :: filtered).take 10
  if writeOk then Except.ok { st with recentProjects := trimmed }
  else Except.error ()

/-- Embeds `addToRecentProjects` from `src/utils.ts` lines 118-138: the `try`
body, with the `catch` branch (lines 135-137) only logging
`console.error("Failed to update recent projects:", error)` — no toast.
Returns the store, the toasts shown (always none) and the console logs. -/
def addToRecentProjects (st : Store) (projectPath : String) (now : Nat)
    (writeOk : Bool) : Store × List ToastMsg × List String :=
  match addToRecentProjectsBody st projectPath now writeOk with
  | Except.ok st2 => (st2, [], [])
  | Except.error _ => (st, [], ["Failed to update recent projects:"])

/-- Embeds `getFavorites` from `src/utils.ts` lines 65-72:
`stored ? JSON.parse(stored) : []` inside a `try` whose `catch` returns `[]`.
`stored` is the raw value of the key (`none` = missing); JS string truthiness
makes the empty string fall back to `[]` as well; a `parse` failure is the
thrown `JSON.parse` exception, absorbed by the `catch`. -/
def getFavorites (stored : Option String)
    (parse : String → Except String (List String)) : List String :=
  match stored with
  | none => []
  | some s =>
    if s.data.isEmpty then []
    else
      match parse s with
      | Except.ok v => v
      | Except.error _ => []

/-- Embeds `getRecentProjects` from `src/utils.ts` lines 108-115, identical in
shape to `getFavorites` but deserializing recent-project entries. -/
def getRecentProjects (stored : Option String)
    (parse : String → Except String (List FavoriteProject)) :
    List FavoriteProject :=
  match stored with
  | none => []
  | some s =>
    if s.data.isEmpty then []
    else
      match parse s with
      | Except.ok v => v
      | Except.error _ => []

/-! Helper lemmas. -/

theorem charListCmp_total (a b : List Char) :
    charListCmp a b ≤ 0 ∨ charListCmp b a ≤ 0 := by
  induction a generalizing b with
  | nil => cases b <;> simp [charListCmp]
  | cons x xs ih =>
    cases b with
    | nil => right; simp [charListCmp]
    | cons y ys =>
      simp only [charListCmp]
      rcases ih ys with h | h <;> split_ifs <;> omega

theorem charListCmp_trans (a b c : List Char) (h1 : charListCmp a b ≤ 0)
    (h2 : charListCmp b c ≤ 0) : charListCmp a c ≤ 0 := by
  induction a generalizing b c with
  | nil => cases c <;> simp [charListCmp]
  | cons x xs ih =>
    cases b with
    | nil => simp [charListCmp] at h1
    | cons y ys =>
      cases c with
      | nil => simp [charListCmp] at h2
      | cons z zs =>
        simp only [charListCmp] at h1 h2 ⊢
        split_ifs at h1 h2 ⊢ <;> first | omega | (exact ih ys zs h1 h2)

theorem jsIndexOf_of_mem {l : List String} {s : String} (h : s ∈ l) :
    jsIndexOf l s = (l.indexOf s : Int) :=
  if_pos h

theorem jsIndexOf_of_not_mem {l : List String} {s : String} (h : s ∉ l) :
    jsIndexOf l s = -1 :=
  if_neg h

theorem jsIndexOf_ne_neg_one {l : List String} {s : String} :
    jsIndexOf l s ≠ -1 ↔ s ∈ l := by
  by_cases h : s ∈ l
  · rw [jsIndexOf_of_mem h]
    simp only [h, iff_true]
    omega
  · rw [jsIndexOf_of_not_mem h]
    simp [h]

theorem eraseIdx_indexOf (l : List String) (a : String) :
    l.eraseIdx (l.indexOf a) = l.erase a := by
  induction l with
  | nil => rfl
  | cons b l ih =>
    by_cases h : b = a
    · simp [List.indexOf_cons, List.erase_cons, h, List.eraseIdx]
    · have hb : (b == a) = false := by simp [h]
      simp [List.indexOf_cons, List.erase_cons, hb, List.eraseIdx, ih]

theorem quickSwitchCmp_both {rp : List String} {a b : Project}
    (ha : a.path ∈ rp) (hb : b.path ∈ rp) :
    quickSwitchCmp rp a b = jsIndexOf rp a.path - jsIndexOf rp b.path := by
  have h1 := jsIndexOf_ne_neg_one.mpr ha
  have h2 := jsIndexOf_ne_neg_one.mpr hb
  simp [quickSwitchCmp, h1, h2]

theorem quickSwitchCmp_left {rp : List String} {a b : Project}
    (ha : a.path ∈ rp) (hb : b.path ∉ rp) :
    quickSwitchCmp rp a b = -1 := by
  have h1 := jsIndexOf_ne_neg_one.mpr ha
  have h2 := jsIndexOf_of_not_mem hb
  simp [quickSwitchCmp, h1, h2]

theorem quickSwitchCmp_right {rp : List String} {a b : Project}
    (ha : a.path ∉ rp) (hb : b.path ∈ rp) :
    quickSwitchCmp rp a b = 1 := by
  have h1 := jsIndexOf_of_not_mem ha
  have h2 := jsIndexOf_ne_neg_one.mpr hb
  simp [quickSwitchCmp, h1, h2]

theorem quickSwitchCmp_none {rp : List String} {a b : Project}
    (ha : a.path ∉ rp) (hb : b.path ∉ rp) :
    quickSwitchCmp rp a b = localeCompare a.name b.name := by
  have h1 := jsIndexOf_of_not_mem ha
  have h2 := jsIndexOf_of_not_mem hb
  simp [quickSwitchCmp, h1, h2]

theorem quickSwitchCmp_total (rp : List String) (a b : Project) :
    quickSwitchCmp rp a b ≤ 0 ∨ quickSwitchCmp rp b a ≤ 0 := by
  by_cases ha : a.path ∈ rp <;> by_cases hb : b.path ∈ rp
  · rw [quickSwitchCmp_both ha hb, quickSwitchCmp_both hb ha]; omega
  · rw [quickSwitchCmp_left ha hb]; omega
  · rw [quickSwitchCmp_left hb ha]; omega
  · rw [quickSwitchCmp_none ha hb, quickSwitchCmp_none hb ha]
    exact charListCmp_total _ _

theorem quickSwitchCmp_trans (rp : List String) (a b c : Project)
    (h1 : quickSwitchCmp rp a b ≤ 0) (h2 : quickSwitchCmp rp b c ≤ 0) :
    quickSwitchCmp rp a c ≤ 0 := by
  by_cases ha : a.path ∈ rp <;> by_cases hb : b.path ∈ rp <;>
    by_cases hc : c.path ∈ rp
  · rw [quickSwitchCmp_both ha hb] at h1
    rw [quickSwitchCmp_both hb hc] at h2
    rw [quickSwitchCmp_both ha hc]; omega
  · rw [quickSwitchCmp_left ha hc]; omega
  · rw [quickSwitchCmp_right hb hc] at h2; omega
  · rw [quickSwitchCmp_left ha hc]; omega
  · rw [quickSwitchCmp_right ha hb] at h1; omega
  · rw [quickSwitchCmp_right ha hb] at h1; omega
  · rw [quickSwitchCmp_right hb hc] at h2; omega
  · rw [quickSwitchCmp_none ha hb] at h1
    rw [quickSwitchCmp_none hb hc] at h2
    rw [quickSwitchCmp_none ha hc]
    exact charListCmp_trans _ _ _ h1 h2

theorem toggleFavorite_true (st : Store) (p : String) :
    toggleFavorite st p true =
      if p ∈ st.favorites then
        (false, { st with favorites := st.favorites.erase p },
          [⟨ToastStyle.success, "Removed from Favorites"⟩])
      else
        (true, { st with favorites := st.favorites ++ [p] },
          [⟨ToastStyle.success, "Added to Favorites"⟩]) := by
  by_cases h : p ∈ st.favorites
  · have h1 := jsIndexOf_ne_neg_one.mpr h
    have h2 : (jsIndexOf st.favorites p).toNat = st.favorites.indexOf p := by
      rw [jsIndexOf_of_mem h]; omega
    simp [toggleFavorite, toggleFavoriteBody, h1, h, h2, eraseIdx_indexOf]
  · have h1 := jsIndexOf_of_not_mem h
    simp [toggleFavorite, toggleFavoriteBody, h1, h]

theorem filter_bne_erase (l : List String) (p : String) :
    (l.erase p).filter (fun q => q != p) = l.filter (fun q => q != p) := by
  induction l with
  | nil => rfl
  | cons b l ih =>
    by_cases h : b = p
    · subst h
      simp [List.erase_cons_head, List.filter_cons]
    · have hb : (b == p) = false := by simp [h]
      simp [List.erase_cons, hb, List.filter_cons, ih]

theorem mem_filter_bne {l : List String} {q p : String} (hq : q ≠ p) :
    q ∈ l.filter (fun x => x != p) ↔ q ∈ l := by
  simp [List.mem_filter, hq]

/-! Claim theorems. -/

/-- Claim C1 (code bug evaluation): `formatDisplayPath` performs a
partial-prefix match. With home `/Users/testuser`, the path
`/Users/testuser2/projects` — which shares the home directory as a string
prefix but not as a whole path segment — is rewritten to `~2/projects`
instead of being returned unchanged, contradicting the claim and the
repository's own unit test "does not replace partial matches"
(`src/utils.test.ts` lines 58-60). The home directory itself and paths rooted
under it are handled as the claim states. -/
theorem formatDisplayPath_partial_prefix_bug :
    formatDisplayPath "/Users/testuser" "/Users/testuser2/projects" = "~2/projects" ∧
    "~2/projects" ≠ "/Users/testuser2/projects" ∧
    formatDisplayPath "/Users/testuser" "/Users/testuser" = "~" ∧
    formatDisplayPath "/Users/testuser" "/Users/testuser/projects/myapp" = "~/projects/myapp" ∧
    formatDisplayPath "/Users/testuser" "/var/www/myapp" = "/var/www/myapp" := by
  refine ⟨by decide, by decide, by decide, by decide, by decide⟩

/-- Claim C8 counterexample: the identity clause fails for markers that name
`Object.prototype` members. At the concrete marker `constructor` (not one of
the fourteen table keys) `markerTypes["constructor"]` reads the inherited
truthy `Object.prototype.constructor`, which `||` returns, so the program
does not return the marker itself. -/
theorem formatProjectType_proto_counterexample :
    (∀ kv ∈ markerTypes, kv.1 ≠ "constructor") ∧
    formatProjectType "constructor" ≠ JsValue.str "constructor" ∧
    formatProjectType "constructor" = JsValue.protoMember "constructor" := by
  refine ⟨by decide, by decide, by decide⟩

/-- Claim C8 (amended): `formatProjectType` maps each of the fourteen known
markers to its short name, and returns any other marker string unchanged —
except markers naming inherited `Object.prototype` members, for which the
truthy inherited prototype value is returned instead of the marker. -/
theorem formatProjectType_spec :
    (formatProjectType ".git" = JsValue.str "git" ∧
     formatProjectType "package.json" = JsValue.str "npm" ∧
     formatProjectType "Cargo.toml" = JsValue.str "cargo" ∧
     formatProjectType "go.mod" = JsValue.str "go" ∧
     formatProjectType "pyproject.toml" = JsValue.str "python" ∧
     formatProjectType "Makefile" = JsValue.str "make" ∧
     formatProjectType "flake.nix" = JsValue.str "nix" ∧
     formatProjectType "composer.json" = JsValue.str "php" ∧
     formatProjectType "build.gradle" = JsValue.str "gradle" ∧
     formatProjectType "pom.xml" = JsValue.str "maven" ∧
     formatProjectType "Gemfile" = JsValue.str "ruby" ∧
     formatProjectType "mix.exs" = JsValue.str "elixir" ∧
     formatProjectType "deno.json" = JsValue.str "deno" ∧
     formatProjectType "pubspec.yaml" = JsValue.str "dart") ∧
    (∀ marker : String, (∀ kv ∈ markerTypes, kv.1 ≠ marker) →
      marker ∉ objectProtoKeys →
      formatProjectType marker = JsValue.str marker) ∧
    (∀ marker : String, (∀ kv ∈ markerTypes, kv.1 ≠ marker) →
      marker ∈ objectProtoKeys →
      formatProjectType marker = JsValue.protoMember marker) := by
  refine ⟨⟨by decide, by decide, by decide, by decide, by decide, by decide,
      by decide, by decide, by decide, by decide, by decide, by decide,
      by decide, by decide⟩, ?_, ?_⟩
  · intro marker h hp
    have hnone : markerTypes.find? (fun kv => kv.1 == marker) = none := by
      rw [List.find?_eq_none]
      intro kv hkv
      simp [h kv hkv]
    simp [formatProjectType, hnone, hp]
  · intro marker h hp
    have hnone : markerTypes.find? (fun kv => kv.1 == marker) = none := by
      rw [List.find?_eq_none]
      intro kv hkv
      simp [h kv hkv]
    simp [formatProjectType, hnone, hp]

/-- Witness for C8 at the concrete unmapped, non-prototype marker
`unknown.txt` and the concrete prototype-member marker `toString`. -/
theorem formatProjectType_spec_check :
    ((∀ kv ∈ markerTypes, kv.1 ≠ "unknown.txt") ∧
     "unknown.txt" ∉ objectProtoKeys ∧
     formatProjectType "unknown.txt" = JsValue.str "unknown.txt") ∧
    ((∀ kv ∈ markerTypes, kv.1 ≠ "toString") ∧
     "toString" ∈ objectProtoKeys ∧
     formatProjectType "toString" = JsValue.protoMember "toString") :=
  ⟨⟨by decide, by decide,
      formatProjectType_spec.2.1 "unknown.txt" (by decide) (by decide)⟩,
    ⟨by decide, by decide,
      formatProjectType_spec.2.2 "toString" (by decide) (by decide)⟩⟩

/-- Claim C7: for timestamps not later than now, with `d` the floored
whole-day difference, `formatDate` yields "Today" for `d = 0`, "Yesterday"
for `d = 1`, "`d` days ago" for `2 ≤ d ≤ 6`, "`d/7` weeks ago" for
`7 ≤ d ≤ 29`, "`d/30` months ago" for `30 ≤ d ≤ 364`, and "`d/365` years
ago" for `365 ≤ d`. -/
theorem formatDate_spec :
    ∀ (nowMs dateMs : Nat), dateMs ≤ nowMs →
      (diffDaysOf nowMs dateMs = 0 → formatDate nowMs (some dateMs) = "Today") ∧
      (diffDaysOf nowMs dateMs = 1 → formatDate nowMs (some dateMs) = "Yesterday") ∧
      (2 ≤ diffDaysOf nowMs dateMs → diffDaysOf nowMs dateMs ≤ 6 →
        formatDate nowMs (some dateMs) =
          toString (diffDaysOf nowMs dateMs) ++ " days ago") ∧
      (7 ≤ diffDaysOf nowMs dateMs → diffDaysOf nowMs dateMs ≤ 29 →
        formatDate nowMs (some dateMs) =
          toString (diffDaysOf nowMs dateMs / 7) ++ " weeks ago") ∧
      (30 ≤ diffDaysOf nowMs dateMs → diffDaysOf nowMs dateMs ≤ 364 →
        formatDate nowMs (some dateMs) =
          toString (diffDaysOf nowMs dateMs / 30) ++ " months ago") ∧
      (365 ≤ diffDaysOf nowMs dateMs →
        formatDate nowMs (some dateMs) =
          toString (diffDaysOf nowMs dateMs / 365) ++ " years ago") := by
  intro nowMs dateMs _
  simp only [diffDaysOf, formatDate]
  refine ⟨?_, ?_, ?_, ?_, ?_, ?_⟩ <;> intros <;> split_ifs <;>
    first | rfl | omega

/-- Witness for C7: three whole days before now formats as "3 days ago", and
zero whole days as "Today". -/
theorem formatDate_spec_check :
    (0 : Nat) ≤ 259200000 ∧ formatDate 259200000 (some 0) = "3 days ago" ∧
    (259200000 : Nat) ≤ 259200000 ∧
    formatDate 259200000 (some 259200000) = "Today" := by
  refine ⟨by decide, ?_, by decide, ?_⟩
  · have h := (formatDate_spec 259200000 0 (by omega)).2.2.1 (by decide) (by decide)
    exact h.trans (by decide)
  · exact (formatDate_spec 259200000 259200000 (by omega)).1 (by decide)

/-- Claim C6: `getFavorites` and `getRecentProjects` are total (no error
reaches the caller; the model's return type is the plain collection) and
return the empty collection when the stored key is missing or the stored
string fails to deserialize. -/
theorem storageReads_absorb_failures :
    (∀ (parseF : String → Except String (List String))
       (parseR : String → Except String (List FavoriteProject)),
      getFavorites none parseF = [] ∧ getRecentProjects none parseR = []) ∧
    (∀ (s : String) (parseF : String → Except String (List String)) (e : String),
      parseF s = Except.error e → getFavorites (some s) parseF = []) ∧
    (∀ (s : String) (parseR : String → Except String (List FavoriteProject))
       (e : String),
      parseR s = Except.error e → getRecentProjects (some s) parseR = []) := by
  refine ⟨fun _ _ => ⟨rfl, rfl⟩, ?_, ?_⟩
  · intro s parseF e h
    by_cases hs : s.data.isEmpty <;> simp [getFavorites, hs, h]
  · intro s parseR e h
    by_cases hs : s.data.isEmpty <;> simp [getRecentProjects, hs, h]

/-- Witness for C6 at a concrete always-failing parse of a concrete stored
string. -/
theorem storageReads_absorb_failures_check :
    (fun _ => (Except.error "bad" : Except String (List String))) "oops" =
      Except.error "bad" ∧
    getFavorites (some "oops") (fun _ => Except.error "bad") = [] :=
  ⟨rfl, storageReads_absorb_failures.2.1 "oops" (fun _ => Except.error "bad")
    "bad" rfl⟩

/-- Claim C5: when the persistence write fails, `toggleFavorite` shows the
failure toast and returns `false` whatever the attempted direction (the store
is left unchanged), while `addToRecentProjects` shows no toast at all and
only emits a console log. -/
theorem writeFailure_handling :
    (∀ (st : Store) (projectPath : String),
      toggleFavorite st projectPath false =
        (false, st, [⟨ToastStyle.failure, "Failed to update favorites"⟩])) ∧
    (∀ (st : Store) (projectPath : String) (now : Nat),
      addToRecentProjects st projectPath now false =
        (st, [], ["Failed to update recent projects:"])) := by
  constructor
  · intro st projectPath
    by_cases h : jsIndexOf st.favorites projectPath = -1 <;>
      simp [toggleFavorite, toggleFavoriteBody, h]
  · intro st projectPath now
    simp [addToRecentProjects, addToRecentProjectsBody]

/-- Claim C2: with writes succeeding and the favorites collection a set (no
duplicate paths, the store's invariant), toggling a path twice restores every
path's membership; the first toggle on an absent path returns `true` and
makes it a member, and the second returns `false` and removes it. -/
theorem toggleFavorite_roundtrip (st : Store) (projectPath : String)
    (h : st.favorites.Nodup) :
    (∀ q, q ∈ (toggleFavorite (toggleFavorite st projectPath true).2.1
        projectPath true).2.1.favorites ↔ q ∈ st.favorites) ∧
    (projectPath ∉ st.favorites →
      (toggleFavorite st projectPath true).1 = true ∧
      projectPath ∈ (toggleFavorite st projectPath true).2.1.favorites ∧
      (toggleFavorite (toggleFavorite st projectPath true).2.1 projectPath true).1 = false ∧
      projectPath ∉ (toggleFavorite (toggleFavorite st projectPath true).2.1
        projectPath true).2.1.favorites) := by
  by_cases hmem : projectPath ∈ st.favorites
  · have e1 : toggleFavorite st projectPath true =
        (false, { st with favorites := st.favorites.erase projectPath },
          [⟨ToastStyle.success, "Removed from Favorites"⟩]) := by
      rw [toggleFavorite_true, if_pos hmem]
    have hnotmem : projectPath ∉ st.favorites.erase projectPath := by
      intro hc
      rcases (List.Nodup.mem_erase_iff h).mp hc with ⟨hne, _⟩
      exact hne rfl
    have e2 : toggleFavorite { st with favorites := st.favorites.erase projectPath }
        projectPath true =
        (true, { st with favorites := st.favorites.erase projectPath ++ [projectPath] },
          [⟨ToastStyle.success, "Added to Favorites"⟩]) := by
      rw [toggleFavorite_true, if_neg hnotmem]
    rw [e1]
    dsimp only
    rw [e2]
    dsimp only
    constructor
    · intro q
      by_cases hq : q = projectPath
      · subst hq
        simp [hmem]
      · simp [List.mem_append, hq, List.mem_erase_of_ne hq]
    · intro habs
      exact absurd hmem habs
  · have e1 : toggleFavorite st projectPath true =
        (true, { st with favorites := st.favorites ++ [projectPath] },
          [⟨ToastStyle.success, "Added to Favorites"⟩]) := by
      rw [toggleFavorite_true, if_neg hmem]
    have hmem2 : projectPath ∈ st.favorites ++ [projectPath] := by simp
    have e2 : toggleFavorite { st with favorites := st.favorites ++ [projectPath] }
        projectPath true =
        (false, { st with favorites := (st.favorites ++ [projectPath]).erase projectPath },
          [⟨ToastStyle.success, "Removed from Favorites"⟩]) := by
      rw [toggleFavorite_true, if_pos hmem2]
    have herase : (st.favorites ++ [projectPath]).erase projectPath = st.favorites := by
      rw [List.erase_append_right _ hmem]
      simp
    rw [e1]
    dsimp only
    rw [e2, herase]
    dsimp only
    exact ⟨fun q => Iff.rfl, fun _ => ⟨rfl, hmem2, rfl, hmem⟩⟩

/-- Witness for C2 at the concrete store with favorites `["a"]` and the
absent path `"b"`. -/
theorem toggleFavorite_roundtrip_check :
    (Store.mk ["a"] []).favorites.Nodup ∧
    ("b" ∈ (toggleFavorite (toggleFavorite (Store.mk ["a"] []) "b" true).2.1
        "b" true).2.1.favorites ↔ "b" ∈ (Store.mk ["a"] []).favorites) :=
  ⟨by decide, (toggleFavorite_roundtrip (Store.mk ["a"] []) "b" (by decide)).1 "b"⟩

/-- Claim C10: a successful `toggleFavorite` changes only the toggled path:
the recent-projects key is untouched, every other path keeps its membership,
and the other favorites keep their relative order (their `filter` is
unchanged). -/
theorem toggleFavorite_frame :
    ∀ (st : Store) (projectPath : String),
      (toggleFavorite st projectPath true).2.1.recentProjects = st.recentProjects ∧
      (toggleFavorite st projectPath true).2.1.favorites.filter
          (fun q => q != projectPath) =
        st.favorites.filter (fun q => q != projectPath) ∧
      (∀ q, q ≠ projectPath →
        ((q ∈ (toggleFavorite st projectPath true).2.1.favorites) ↔
          q ∈ st.favorites)) := by
  intro st projectPath
  rw [toggleFavorite_true]
  by_cases hmem : projectPath ∈ st.favorites
  · rw [if_pos hmem]
    refine ⟨rfl, ?_, ?_⟩
    · exact filter_bne_erase _ _
    · intro q hq
      exact List.mem_erase_of_ne hq
  · rw [if_neg hmem]
    refine ⟨rfl, ?_, ?_⟩
    · simp [List.filter_append]
    · intro q hq
      simp [List.mem_append, hq]

/-- Witness for C10 at the concrete store with favorites `["a"]`, toggled
path `"b"`, and other path `"a"`. -/
theorem toggleFavorite_frame_check :
    (toggleFavorite (Store.mk ["a"] []) "b" true).2.1.recentProjects = [] ∧
    ("a" : String) ≠ "b" ∧
    ("a" ∈ (toggleFavorite (Store.mk ["a"] []) "b" true).2.1.favorites ↔
      "a" ∈ (Store.mk ["a"] []).favorites) :=
  ⟨(toggleFavorite_frame (Store.mk ["a"] []) "b").1, by decide,
    (toggleFavorite_frame (Store.mk ["a"] []) "b").2.2 "a" (by decide)⟩

/-- Claim C3: with writes succeeding, `addToRecentProjects` leaves exactly one
entry for the path, at the front, stamped `now`; the remaining entries are the
previous ones for other paths in their previous relative order (a sublist of
the old list), truncated so the store holds at most 10 entries. Adding the 11
distinct paths `p0`..`p10` in sequence to an empty store leaves exactly the 10
most recent, most recent first; `p0` is evicted. -/
theorem addToRecentProjects_spec :
    (∀ (st : Store) (projectPath : String) (now : Nat),
      (addToRecentProjects st projectPath now true).1.recentProjects.countP
          (fun e => e.path == projectPath) = 1 ∧
      (addToRecentProjects st projectPath now true).1.recentProjects.head? =
        some ⟨projectPath, now⟩ ∧
      (addToRecentProjects st projectPath now true).1.recentProjects.tail =
        (st.recentProjects.filter (fun e => e.path != projectPath)).take 9 ∧
      (addToRecentProjects st projectPath now true).1.recentProjects.tail.Sublist
        st.recentProjects ∧
      (addToRecentProjects st projectPath now true).1.recentProjects.length ≤ 10) ∧
    ((List.range 11).foldl
        (fun st i => (addToRecentProjects st ("p" ++ toString i) i true).1)
        (Store.mk [] []) =
      Store.mk [] [⟨"p10", 10⟩, ⟨"p9", 9⟩, ⟨"p8", 8⟩, ⟨"p7", 7⟩, ⟨"p6", 6⟩,
        ⟨"p5", 5⟩, ⟨"p4", 4⟩, ⟨"p3", 3⟩, ⟨"p2", 2⟩, ⟨"p1", 1⟩]) := by
  constructor
  · intro st projectPath now
    have e2 : (addToRecentProjects st projectPath now true).1.recentProjects =
        ⟨projectPath, now⟩ ::
          (st.recentProjects.filter (fun e => e.path != projectPath)).take 9 := rfl
    have hz : ((st.recentProjects.filter (fun e => e.path != projectPath)).take 9).countP
        (fun e => e.path == projectPath) = 0 := by
      rw [List.countP_eq_zero]
      intro a ha
      have hne := (List.mem_filter.mp (List.mem_of_mem_take ha)).2
      simp only [bne_iff_ne, ne_eq] at hne
      simp [hne]
    refine ⟨?_, ?_, ?_, ?_, ?_⟩
    · rw [e2, List.countP_cons, hz]
      simp
    · rw [e2]
      rfl
    · rw [e2]
      rfl
    · rw [e2]
      exact (List.take_sublist _ _).trans (List.filter_sublist _)
    · rw [e2]
      simp only [List.length_cons]
      have := List.length_take 9
        (st.recentProjects.filter (fun e => e.path != projectPath))
      omega
  · decide

/-- Claim C4: the quick-switch ordering is pairwise consistent with the
comparator: nothing non-recent precedes anything recent, recent projects are
in ascending recency-index order, and non-recent ones are in alphabetical
name order; on the spec's example with recent list `[B, A]` and discovered
`[A, B, C]` it yields `[B, A, C]`. -/
theorem quickSwitch_ordering :
    (∀ (recentPathList : List String) (projects : List Project),
      (sortedProjects recentPathList projects).Pairwise (fun a b =>
        (jsIndexOf recentPathList b.path ≠ -1 → jsIndexOf recentPathList a.path ≠ -1) ∧
        (jsIndexOf recentPathList a.path ≠ -1 → jsIndexOf recentPathList b.path ≠ -1 →
          jsIndexOf recentPathList a.path ≤ jsIndexOf recentPathList b.path) ∧
        (jsIndexOf recentPathList a.path = -1 → jsIndexOf recentPathList b.path = -1 →
          localeCompare a.name b.name ≤ 0))) ∧
    sortedProjects ["/r/B", "/r/A"] [projA, projB, projC] = [projB, projA, projC] := by
  constructor
  · intro rp ps
    have hs : (sortedProjects rp ps).Pairwise
        (fun a b => quickSwitchCmp rp a b ≤ 0) :=
      @List.sorted_insertionSort Project (fun a b => quickSwitchCmp rp a b ≤ 0) _
        ⟨fun a b => quickSwitchCmp_total rp a b⟩
        ⟨fun a b c => quickSwitchCmp_trans rp a b c⟩ ps
    refine hs.imp ?_
    intro a b hab
    refine ⟨?_, ?_, ?_⟩
    · intro hb
      by_contra ha
      have hbm : b.path ∈ rp := jsIndexOf_ne_neg_one.mp hb
      have ham : a.path ∉ rp := fun hm => (jsIndexOf_ne_neg_one.mpr hm) ha
      rw [quickSwitchCmp_right ham hbm] at hab
      omega
    · intro ha hb
      have ham := jsIndexOf_ne_neg_one.mp ha
      have hbm := jsIndexOf_ne_neg_one.mp hb
      rw [quickSwitchCmp_both ham hbm] at hab
      omega
    · intro ha hb
      have ham : a.path ∉ rp := fun hm => (jsIndexOf_ne_neg_one.mpr hm) ha
      have hbm : b.path ∉ rp := fun hm => (jsIndexOf_ne_neg_one.mpr hm) hb
      rw [quickSwitchCmp_none ham hbm] at hab
      exact hab
  · decide

/-- Claim C9: the quick-switch output is a permutation of the discovered
list — nothing dropped, nothing added; in particular recent paths absent from
the discovered list contribute no entries. -/
theorem sortedProjects_perm :
    ∀ (recentPathList : List String) (projects : List Project),
      (sortedProjects recentPathList projects).Perm projects ∧
      ∀ pr : Project, pr ∈ sortedProjects recentPathList projects ↔ pr ∈ projects := by
  intro rp ps
  have h : (sortedProjects rp ps).Perm ps := List.perm_insertionSort _ ps
  exact ⟨h, fun pr => h.mem_iff⟩
